import Mathlib

/-!
Shallow embedding of the `aster` declaration model (src/aster/inspect.go):
the declaration collector, the field normalizer, the method binder and the
scope resolver.  Go strings are modelled as `List Char`, `token.Pos` as
`Nat` (with `token.NoPos = 0`), the position-keyed Go maps
`map[token.Pos]...` as association lists in insertion order, and the
nondeterministic iteration order of Go maps as the list order (any
particular order is a possible execution of the Go code).  The rendering
back-end (`go/format.Node`) is an external collaborator; it is modelled as
a function field `fset : Expr → Except Str Str` of each `File`.
-/

namespace Aster

abbrev Str := List Char
abbrev Pos := Nat

/-- Shorthand turning a Lean string literal into the model's `Str`. -/
def str (s : String) : Str := s.toList

/-- Source strings.Contains(name, "."): does the character occur in the
string. -/
def strContains : Str → Char → Bool
  | [], _ => false
  | c :: rest, d => if c == d then true else strContains rest d

/-- Source strings.TrimLeft(name, "*"): drop every leading '*'. -/
def strTrimStar (s : Str) : Str := s.dropWhile (fun c => c == '*')

/-- Splits at the first occurrence of `'.'`; `none` when there is no dot. -/
def splitFirstDot : Str → Option (Str × Str)
  | [] => none
  | c :: rest =>
    if c == '.' then some ([], rest)
    else
      match splitFirstDot rest with
      | none => none
      | some (a, b) => some (c :: a, b)

/-- Source strings.SplitN(s, ".", 2): one piece when there is no dot,
otherwise the part before the first dot and the rest. -/
def strSplitN2 (s : Str) : List Str :=
  match splitFirstDot s with
  | none => [s]
  | some (a, b) => [a, b]

/-- Source ast.BasicLit restricted to what the code touches (Kind, Value);
used for struct tags. -/
structure BasicLit where
  kind : Nat
  value : Str
deriving DecidableEq

/-- Source cloneBasicLit: copies Kind and Value; value-identical copy. -/
def cloneBasicLit : Option BasicLit → Option BasicLit
  | none => none
  | some b => some { kind := b.kind, value := b.value }

mutual

/-- Go AST expressions, restricted to the node shapes the collector and the
resolver dispatch on.  `otherE` stands for every further node shape (the
code's `default:` switch arms).  Each node carries its parser position. -/
inductive Expr where
  | ident (pos : Pos) (name : Str)
  | selector (pos : Pos) (x : Expr) (sel : Str)
  | star (pos : Pos) (x : Expr)
  | chanT (pos : Pos) (elem : Expr)
  | arrayT (pos : Pos) (elem : Expr)
  | mapT (pos : Pos) (key : Expr) (val : Expr)
  | interfaceT (pos : Pos) (methods : List AField)
  | structT (pos : Pos) (fields : List AField)
  | funcT (pos : Pos)
  | otherE (pos : Pos)

/-- Source ast.Field: a declaration group of names sharing one type and,
for struct members, one tag.  (Named `AField`: `Field` is taken by Mathlib.) -/
inductive AField where
  | mk (names : List Str) (typ : Expr) (tag : Option BasicLit)
end

def AField.names : AField → List Str
  | .mk ns _ _ => ns

def AField.typ : AField → Expr
  | .mk _ t _ => t

def AField.tag : AField → Option BasicLit
  | .mk _ _ tg => tg

/-- Position of an expression node (ast.Node.Pos()). -/
def Expr.posOf : Expr → Pos
  | .ident p _ => p
  | .selector p _ _ => p
  | .star p _ => p
  | .chanT p _ => p
  | .arrayT p _ => p
  | .mapT p _ _ => p
  | .interfaceT p _ => p
  | .structT p _ => p
  | .funcT p => p
  | .otherE p => p

/-- Source getElem (inspect.go): strips any number of leading pointer
indirections from an expression.  (Suffixed `E`: `getElem` is taken by core.) -/
def getElemE : Expr → Expr
  | .star _ x => getElemE x
  | e => e

/-- Source aster.FuncField (declared outside inspect.go): a normalized
function parameter / result / receiver.  Name is "" (here `[]`) when the
field is anonymous, TypeName is the rendered type text. -/
structure FuncField where
  name : Str
  typeName : Str
deriving DecidableEq

/-- Field record of a Struct entity per the spec's data model: "optional
name (anonymous allowed), type reference (rendered text), optional tag". -/
structure StructField where
  name : Str
  typeName : Str
  tag : Option BasicLit
deriving DecidableEq

/-- Modelled from the spec: the Method record ("name, documentation,
reference to its Func entity, reference to the receiver Type entity") whose
declaration is outside inspect.go.  The references are position keys, per
the spec's position-keyed surrogate-identity design; the receiver
back-reference (a cyclic pointer in Go) is the entity holding the list. -/
structure MethodRec where
  name : Str
  funcPos : Pos
deriving DecidableEq

/-- Variant-specific payload of the non-Func type entities (spec §3): the
struct's raw field groups plus its normalized Fields, or the referenced
element/underlying type in nested-expression form. -/
inductive TypeKind where
  | structK (raw : List AField) (fields : List StructField)
  | aliasK (elem : Expr)
  | basicK (elem : Expr)
  | chanK (elem : Expr)
  | listK (elem : Expr)
  | mapK (key : Expr) (val : Expr)
  | interfaceK (methods : List AField)

def TypeKind.isAlias : TypeKind → Bool
  | .aliasK _ => true
  | _ => false

def TypeKind.isBasic : TypeKind → Bool
  | .basicK _ => true
  | _ => false

def TypeKind.isStruct : TypeKind → Bool
  | .structK _ _ => true
  | _ => false

/-- Modelled from the spec: the non-Func type entity (aster.TypeNode,
declared outside inspect.go).  Common attributes per spec §3: optional
declared name, optional documentation, source position (identity), the
assign/definition-kind sentinel, and a mutable ordered list of bound
Methods. -/
structure TypeNode where
  name : Option Str
  doc : Option Str
  assign : Int
  pos : Pos
  kind : TypeKind
  methods : List MethodRec

/-- Modelled from the spec: TypeNode.Name() — the declared name, the empty
string for an anonymous entity (Go's zero value). -/
def TypeNode.nameStr (t : TypeNode) : Str := t.name.getD []

/-- Modelled from the spec: the Func entity (aster.FuncNode, declared
outside inspect.go): optional name, receiver field when the declaration is
a method, ordered parameter and result fields.  The opaque body reference
is passed through to the renderer only and is omitted here. -/
structure FuncNode where
  name : Option Str
  doc : Option Str
  pos : Pos
  recv : Option FuncField
  params : List FuncField
  results : List FuncField

/-- Modelled from the spec: FuncNode.Recv() — the receiver description and
whether the Func entity carries one ("receiver field (if a method)"). -/
def FuncNode.Recv (m : FuncNode) : Option FuncField := m.recv

/-- Modelled from the spec: TypeNode.addMethod — binding is additive, it
appends the Method wrapping the Func to the receiver entity's method list
and never removes or replaces. -/
def TypeNode.addMethod (t : TypeNode) (m : FuncNode) : TypeNode :=
  { t with methods := t.methods ++ [{ name := m.name.getD [], funcPos := m.pos }] }

/-- Source aster.Import restricted to what the lookup code touches: Name,
the local alias — explicit, the imported package's declared name, or "."
for a dot import. -/
structure Import where
  name : Str

/-- A type-declaration spec or a value spec inside a declaration group
(ast.TypeSpec / ast.ValueSpec).  `assign` is the position of "=" for the
alias form `type A = B`, `0` (token.NoPos) for a definition `type A B`. -/
inductive SpecD where
  | typeSpec (name : Str) (assign : Int) (doc : Option Str) (typ : Option Expr)
  | valueSpec (names : List Str) (doc : Option Str) (typ : Option Expr)

/-- A top-level declaration (ast.GenDecl / ast.FuncDecl).  For a FuncDecl,
`ftypePos` is the position of its ast.FuncType (= the FuncDecl's Pos()),
`recv` its receiver field list (`none` when the declaration is a plain
function).  The source's ast.Inspect walks every node of the tree; the
files in this development declare everything at the top level, so the model
walks the declaration list.  (Function literals and composite struct
literals nested in bodies are collected by the same switch arms; no claim
concerns them.) -/
inductive Decl where
  | genDecl (doc : Option Str) (specs : List SpecD)
  | funcDecl (name : Str) (doc : Option Str) (recv : Option (List AField))
      (ftypePos : Pos) (params : Option (List AField)) (results : Option (List AField))

/-- Source aster.File restricted to the fields inspect.go touches: the
syntax tree, the import table, the function table and the type table (both
keyed by source position), and the rendering back-end (`f.FileSet` fed to
`format.Node`, modelled as the function `fset`).  The Go back-reference
`f.pkg` is passed explicitly as an `Option Package` argument to the
functions that consult it. -/
structure File where
  ast : List Decl
  imports : List Import
  fset : Expr → Except Str Str
  funcs : List (Pos × FuncNode)
  types : List (Pos × TypeNode)

/-- Source aster.Module restricted to what LookupPackages touches: `Pkgs`,
the mapping from package name to the package's member files. -/
structure Module where
  pkgs : List (Str × List File)

/-- Source aster.Package: the member files (a Go map, whose unspecified
iteration order is modelled by the list order) and the owning module
(`nil` when the package was parsed without a module). -/
structure Package where
  files : List File
  module : Option Module

/-- Go map read `m[k]` for the string-keyed module table. -/
def lookupAssoc {α : Type} : List (Str × α) → Str → Option α
  | [], _ => none
  | (k, v) :: rest, key => if k == key then some v else lookupAssoc rest key

/-- Go map write `m[k] = v` on a position-keyed table: overwrite the
existing entry or append a new one. -/
def tblInsert {α : Type} (t : List (Pos × α)) (k : Pos) (v : α) : List (Pos × α) :=
  if t.any (fun e => e.1 == k) then
    t.map (fun e => if e.1 == k then (k, v) else e)
  else
    t ++ [(k, v)]

/-- Source File.Format: renders a node through the back-end; returns the
pair (code, err) of Go's named return values — ("", err) on failure. -/
def File.Format (f : File) (node : Expr) : Str × Option Str :=
  match f.fset node with
  | .ok s => (s, none)
  | .error e => ([], some e)

/-- Source File.TryFormat: renders the node and substitutes the first
supplied default when rendering failed; with no default it returns the
(empty) code value. -/
def File.TryFormat (f : File) (node : Expr) (defaultValue : List Str) : Str :=
  let r := f.Format node
  if r.2.isSome && decide (0 < defaultValue.length) then defaultValue.headD []
  else r.1

/-- Source expandFields, loop body: the group is appended (keeping its
first name after the in-place truncation `g.Names = g.Names[:1]`), and each
further name yields its own single-name field with the same type and a
cloned tag. -/
def expandFieldsStep (list : List AField) (g : AField) : List AField :=
  if 1 < g.names.length then
    (list ++ [.mk (g.names.take 1) g.typ g.tag])
      ++ (g.names.drop 1).map (fun n => .mk [n] g.typ (cloneBasicLit g.tag))
  else list ++ [g]

/-- Source expandFields on the groups of a field list (the `nil` field-list
guard is the `Option` wrapper below). -/
def expandFieldsCore (fl : List AField) : List AField :=
  fl.foldl expandFieldsStep []

/-- Source expandFields: returns unchanged on a nil field list. -/
def expandFields : Option (List AField) → Option (List AField)
  | none => none
  | some fl => some (expandFieldsCore fl)

/-- Source File.expandFuncFields: renders each group's type once and emits
one FuncField per declared name, or a single anonymous FuncField for a
nameless group; a nil field list yields no fields. -/
def File.expandFuncFields (f : File) (fieldList : Option (List AField)) : List FuncField :=
  match fieldList with
  | none => []
  | some gs =>
    gs.foldl (fun fields g =>
      let typeName := f.TryFormat g.typ []
      if g.names.length == 0 then
        fields ++ [{ name := [], typeName := typeName }]
      else
        fields ++ g.names.map (fun n => { name := n, typeName := typeName })) []

/-- Modelled from the spec: File.newFuncType (declared outside inspect.go)
builds the Func entity from the pieces collectFuncs extracts; its position
identity is the function type's position (ast.FuncDecl.Pos() =
ast.FuncLit.Pos() = Type.Pos()). -/
def newFuncType (name : Option Str) (doc : Option Str) (pos : Pos)
    (recv : Option FuncField) (params results : List FuncField) : FuncNode :=
  { name := name, doc := doc, pos := pos, recv := recv,
    params := params, results := results }

/-- Modelled from the spec: File.newStructType (declared outside
inspect.go): a Struct entity keyed by the struct literal's own position,
holding its raw field groups; the normalized Fields are produced later by
setFields. -/
def newStructType (name : Option Str) (doc : Option Str) (assign : Int)
    (pos : Pos) (raw : List AField) : TypeNode :=
  { name := name, doc := doc, assign := assign, pos := pos,
    kind := .structK raw [], methods := [] }

/-- Modelled from the spec: File.newAliasType — a dotted (package-
qualified) identifier declaration yields an Alias entity carrying the
referenced type in nested-expression form. -/
def newAliasType (name : Option Str) (doc : Option Str) (assign : Int)
    (e : Expr) : TypeNode :=
  { name := name, doc := doc, assign := assign, pos := e.posOf,
    kind := .aliasK e, methods := [] }

/-- Modelled from the spec: File.newBasicOrAliasType — a plain identifier
declaration yields an Alias for the defining-alias form (assign sentinel
set) and a Basic entity for a new underlying type. -/
def newBasicOrAliasType (name : Option Str) (doc : Option Str) (assign : Int)
    (e : Expr) : TypeNode :=
  if assign == 0 then
    { name := name, doc := doc, assign := assign, pos := e.posOf,
      kind := .basicK e, methods := [] }
  else
    { name := name, doc := doc, assign := assign, pos := e.posOf,
      kind := .aliasK e, methods := [] }

/-- Modelled from the spec: File.newChanType — the channel variant carrying
its element type. -/
def newChanType (name : Option Str) (doc : Option Str) (assign : Int)
    (pos : Pos) (elem : Expr) : TypeNode :=
  { name := name, doc := doc, assign := assign, pos := pos,
    kind := .chanK elem, methods := [] }

/-- Modelled from the spec: File.newListType — the list (array or slice)
variant carrying its element type. -/
def newListType (name : Option Str) (doc : Option Str) (assign : Int)
    (pos : Pos) (elem : Expr) : TypeNode :=
  { name := name, doc := doc, assign := assign, pos := pos,
    kind := .listK elem, methods := [] }

/-- Modelled from the spec: File.newMapType — the map variant carrying its
key and value types. -/
def newMapType (name : Option Str) (doc : Option Str) (assign : Int)
    (pos : Pos) (key val : Expr) : TypeNode :=
  { name := name, doc := doc, assign := assign, pos := pos,
    kind := .mapK key val, methods := [] }

/-- Modelled from the spec: File.newInterfaceType — the interface variant
carrying its method field list. -/
def newInterfaceType (name : Option Str) (doc : Option Str) (assign : Int)
    (pos : Pos) (methods : List AField) : TypeNode :=
  { name := name, doc := doc, assign := assign, pos := pos,
    kind := .interfaceK methods, methods := [] }

/-- Source File.collectFuncs (second traversal pass of inspect.go): every
function declaration becomes a Func entity keyed by its own position; a
declaration with a receiver is paired with the first expanded receiver
field for later binding. -/
def File.collectFuncs (f : File) : File :=
  { f with funcs := f.ast.foldl (fun tbl d =>
      match d with
      | .funcDecl name doc recv ftypePos params results =>
        let recvF := (f.expandFuncFields recv).head?
        let t := newFuncType (some name) doc ftypePos recvF
          (f.expandFuncFields params) (f.expandFuncFields results)
        tblInsert tbl t.pos t
      | _ => tbl) f.funcs }

/-- Source File.collectTypeSpecs: yields every TypeSpec of every GenDecl
together with its effective documentation.  The `doc` variable starts at
the GenDecl's Doc and is overwritten whenever a TypeSpec carries its own
Doc (and, as in the source, the overwrite persists for later specs of the
same group). -/
def collectTypeSpecsList (ast : List Decl) : List (Str × Int × Option Str × Option Expr) :=
  ast.foldl (fun acc d =>
    match d with
    | .genDecl doc0 specs =>
      (specs.foldl (fun (st : List (Str × Int × Option Str × Option Expr) × Option Str) sp =>
        match sp with
        | .typeSpec name assign sdoc typ =>
          let doc := match sdoc with
            | some s => some s
            | none => st.2
          (st.1 ++ [(name, assign, doc, typ)], doc)
        | _ => st) (acc, doc0)).1
    | _ => acc) []

/-- Source File.collectTypesOtherThanStruct, switch body: dispatch a
TypeSpec by the shape of its right-hand side after getElem strips the
leading pointer indirections.  Unrecognized shapes (including the struct
form, which the struct sub-pass handles) register no entity. -/
def dispatchTypeSpec (name : Str) (assign : Int) (doc : Option Str)
    (typ : Option Expr) : Option TypeNode :=
  match typ with
  | none => none
  | some t =>
    match getElemE t with
    | .selector p x sel => some (newAliasType (some name) doc assign (.selector p x sel))
    | .ident p n => some (newBasicOrAliasType (some name) doc assign (.ident p n))
    | .chanT p elem => some (newChanType (some name) doc assign p elem)
    | .arrayT p elem => some (newListType (some name) doc assign p elem)
    | .mapT p key val => some (newMapType (some name) doc assign p key val)
    | .interfaceT p ms => some (newInterfaceType (some name) doc assign p ms)
    | _ => none

/-- Source File.collectTypesOtherThanStruct: registers the dispatched
entity of every TypeSpec under the entity's position. -/
def File.collectTypesOtherThanStruct (f : File) : File :=
  { f with types := (collectTypeSpecsList f.ast).foldl (fun tbl e =>
      match dispatchTypeSpec e.1 e.2.1 e.2.2.1 e.2.2.2 with
      | some tn => tblInsert tbl tn.pos tn
      | none => tbl) f.types }

/-- Source File.collectStructs (second version): named declarations whose
right-hand side is a struct literal become named Struct entities (assign
sentinel -1 for value specs), keyed by the struct literal's position.
Composite-literal struct nodes nested in bodies take the anonymous branch
of the same switch; the scenario files contain none. -/
def File.collectStructs (f : File) : File :=
  { f with types := f.ast.foldl (fun tbl d =>
      match d with
      | .genDecl doc0 specs =>
        specs.foldl (fun tbl sp =>
          match sp with
          | .typeSpec name assign sdoc typ =>
            let doc := match sdoc with
              | some s => some s
              | none => doc0
            match typ with
            | some (.structT spos flds) =>
              let st := newStructType (some name) doc assign spos flds
              tblInsert tbl st.pos st
            | _ => tbl
          | .valueSpec names sdoc typ =>
            let doc := match sdoc with
              | some s => some s
              | none => doc0
            match names with
            | [] => tbl
            | n0 :: _ =>
              match typ with
              | some (.structT spos flds) =>
                let st := newStructType (some n0) doc (-1) spos flds
                tblInsert tbl st.pos st
              | _ => tbl) tbl
      | _ => tbl) f.types }

/-- Modelled from the spec: StructType.setFields (declared outside
inspect.go) — the Field Normalizer expands the struct's raw field groups
(via the source's expandFields) and renders each field's type, producing
one Field record per declared name and a nameless record for an embedded
group. -/
def setFieldsNode (f : File) (t : TypeNode) : TypeNode :=
  match t.kind with
  | .structK raw _ =>
    { t with kind := .structK raw ((expandFieldsCore raw).map (fun g =>
        { name := g.names.headD [], typeName := f.TryFormat g.typ [], tag := g.tag })) }
  | _ => t

/-- Source File.setStructFields: runs setFields on every Struct entity of
the file's type table. -/
def File.setStructFields (f : File) : File :=
  { f with types := f.types.map (fun e => (e.1, setFieldsNode f e.2)) }

/-- Source File.LookupImports: collects the Import records whose local
name equals the requested package name, with the found flag. -/
def File.LookupImports (f : File) (currPkgName : Str) : List Import × Bool :=
  f.imports.foldl (fun acc imp =>
    if imp.name == currPkgName then (acc.1 ++ [imp], true) else acc) ([], false)

/-- Source File.LookupPackages: resolves a local package name through the
origin file's import table to the member-file sets of the module's
packages.  Returns immediately when the file has no package or the package
no module.  As in the source, the found flag set by LookupImports is kept
even when no module package matches any import. -/
def File.LookupPackages (pkg : Option Package) (f : File) (currPkgName : Str) :
    List (List File) × Bool :=
  match pkg with
  | none => ([], false)
  | some p =>
    match p.module with
    | none => ([], false)
    | some mod =>
      let r := f.LookupImports currPkgName
      if !r.2 then ([], false)
      else r.1.foldl (fun acc imp =>
        match lookupAssoc mod.pkgs imp.name with
        | some pfiles => (acc.1 ++ [pfiles], true)
        | none => acc) ([], r.2)

/-- Source File.LookupTypeInFile: first entity in the file's type table
(in table order) whose declared name equals the requested name. -/
def File.LookupTypeInFile (f : File) (name : Str) : Option TypeNode :=
  f.types.findSome? (fun e => if name == e.2.nameStr then some e.2 else none)

/-- Source File.LookupTypeInPackage: a dotted name is refused; otherwise
leading '*' markers are stripped and, with no owning package, the origin
file's own table is searched, while with a package the member files are
scanned in table order — the origin file gets no precedence. -/
def File.LookupTypeInPackage (pkg : Option Package) (f : File) (name : Str) :
    Option TypeNode :=
  if strContains name '.' then none
  else
    let name := strTrimStar name
    match pkg with
    | none => f.LookupTypeInFile name
    | some p => p.files.findSome? (fun v => v.LookupTypeInFile name)

/-- Source File.LookupTypeInModule: package scope first; otherwise the
star-trimmed name is split at its first dot into alias and identifier (a
bare name gets the implicit "." alias), the alias is resolved through
the import table, and the identifier is looked up across each resolved
package's files, first match winning. -/
def File.LookupTypeInModule (pkg : Option Package) (f : File) (name : Str) :
    Option TypeNode :=
  match f.LookupTypeInPackage pkg name with
  | some t => some t
  | none =>
    let n := strTrimStar name
    let ai := match strSplitN2 n with
      | [x, y] => (x, y)
      | _ => (['.'], n)
    let r := f.LookupPackages pkg ai.1
    if r.2 then
      r.1.findSome? (fun pfiles => pfiles.findSome? (fun v => v.LookupTypeInFile ai.2))
    else none

/-- Location form of LookupTypeInFile: the table key of the entity the
source function returns a pointer to (binding mutates through that
pointer, so the state-passing model updates at this key). -/
def lookupTypeLocInFile (f : File) (name : Str) : Option Pos :=
  f.types.findSome? (fun e => if name == e.2.nameStr then some e.1 else none)

/-- Location form of LookupTypeInPackage for the binder running inside a
package: same refusal of dotted names, same star-stripping, same scan
order over the member files; yields the file index and table key. -/
def lookupTypeLocInPackage (p : Package) (name : Str) : Option (Nat × Pos) :=
  if strContains name '.' then none
  else
    let n := strTrimStar name
    p.files.enum.findSome? (fun fi => (lookupTypeLocInFile fi.2 n).map (fun q => (fi.1, q)))

/-- Replace the element at an index, leaving the list unchanged when the
index is out of range. -/
def updAt {α : Type} : List α → Nat → (α → α) → List α
  | [], _, _ => []
  | a :: l, 0, g => g a :: l
  | a :: l, Nat.succ i, g => a :: updAt l i g

/-- Source File.bindMethods, loop body, in package context: a Func with no
receiver is skipped; a receiver whose type name does not resolve in
package scope leaves the package untouched; otherwise the Method is
appended to the resolved entity's method list (a pointer-side mutation in
the source, an update at the entity's table key here). -/
def bindOne (p : Package) (m : FuncNode) : Package :=
  match m.Recv with
  | none => p
  | some recv =>
    match lookupTypeLocInPackage p recv.typeName with
    | none => p
    | some jq =>
      { p with files := updAt p.files jq.1 (fun f =>
          { f with types := f.types.map (fun e =>
              if e.1 == jq.2 then (e.1, e.2.addMethod m) else e) }) }

/-- Source File.bindMethods for the file at index `i` of the package: every
Func entity of that file's function table is offered to the binder. -/
def bindMethodsAt (p : Package) (i : Nat) : Package :=
  match p.files.get? i with
  | none => p
  | some f => f.funcs.foldl (fun pk e => bindOne pk e.2) p

/-- Source File.collectNodes without the single-parsing binder call: reset
and fill the function table, then the type tables, then normalize struct
fields. -/
def File.collectNodesPhase (f : File) : File :=
  let f := { f with funcs := [] }
  let f := f.collectFuncs
  let f := { f with types := [] }
  let f := f.collectTypesOtherThanStruct
  let f := f.collectStructs
  f.setStructFields

/-- Source File.bindMethods on a standalone file (f.pkg == nil): the
receiver's name is looked up through LookupTypeInPackage, which degrades
to the file's own table; the resolved entity is updated in place. -/
def File.bindMethodsSolo (f : File) : File :=
  f.funcs.foldl (fun fc e =>
    match e.2.Recv with
    | none => fc
    | some recv =>
      if strContains recv.typeName '.' then fc
      else
        match lookupTypeLocInFile fc (strTrimStar recv.typeName) with
        | none => fc
        | some q =>
          { fc with types := fc.types.map (fun te =>
              if te.1 == q then (te.1, te.2.addMethod e.2) else te) }) f

/-- Source File.collectNodes with its singleParsing flag. -/
def File.collectNodes (f : File) (singleParsing : Bool) : File :=
  let f := f.collectNodesPhase
  if singleParsing then f.bindMethodsSolo else f

/-- Source Package.collectNodes: every member file's collector finishes
before any file's binder runs ("Waiting for types ready to do method
association"). -/
def Package.collectNodes (p : Package) : Package :=
  let p := { p with files := p.files.map File.collectNodesPhase }
  (List.range p.files.length).foldl bindMethodsAt p

/-- A gofmt-style rendering of the modelled expression shapes: the
concrete instance of the external pretty-printing back-end used by the
scenario files. -/
def pretty : Expr → Str
  | .ident _ n => n
  | .selector _ x sel => pretty x ++ '.' :: sel
  | .star _ x => '*' :: pretty x
  | .chanT _ elem => str "chan " ++ pretty elem
  | .arrayT _ elem => str "[]" ++ pretty elem
  | .mapT _ key val => str "map[" ++ pretty key ++ ']' :: pretty val
  | .interfaceT _ _ => str "interface\x7b\x7d"
  | .structT _ _ => str "struct\x7b\x7d"
  | .funcT _ => str "func()"
  | .otherE _ => str "expr"

/-- A rendering back-end that always succeeds. -/
def goRender : Expr → Except Str Str := fun e => .ok (pretty e)

/-- A rendering back-end that always fails, for the rendering-failure
claims. -/
def failRender : Expr → Except Str Str := fun _ => .error (str "render failed")

/-- An `int` identifier node. -/
def intE : Expr := .ident 12 (str "int")

/-- The struct literal of `type Point struct \x7b X, Y int \x7d`. -/
def pointStructE : Expr := .structT 11 [.mk [str "X", str "Y"] intE none]

/-- Scenario file one: declares `type Point struct \x7b X, Y int \x7d`. -/
def fileOne : File :=
  { ast := [.genDecl none [.typeSpec (str "Point") 0 none (some pointStructE)]],
    imports := [], fset := goRender, funcs := [], types := [] }

/-- Scenario file two: declares `func (p *Point) Len() int` in the same
package — the pointer-receiver method of the cross-file binding scenario. -/
def fileTwo : File :=
  { ast := [.funcDecl (str "Len") none
      (some [.mk [str "p"] (.star 20 (.ident 21 (str "Point"))) none])
      22 (some []) (some [.mk [] intE none])],
    imports := [], fset := goRender, funcs := [], types := [] }

/-- The two-file package of end-to-end scenario 1. -/
def pkgOne : Package := { files := [fileOne, fileTwo], module := none }

/-- Scenario 1 after the package-level collect+bind entry point. -/
def pkgOneDone : Package := pkgOne.collectNodes

/-- Expression-free summary of a type entity, for closed statements. -/
structure Summary where
  name : Option Str
  isStruct : Bool
  fields : List StructField
  methodNames : List Str
deriving DecidableEq

def nodeSummary (t : TypeNode) : Summary :=
  { name := t.name, isStruct := t.kind.isStruct,
    fields := match t.kind with
      | .structK _ fs => fs
      | _ => [],
    methodNames := t.methods.map (fun m => m.name) }

/-- Scenario file for the value-receiver boundary: `func (p Point) Len() int`
— the receiver is not a pointer to an identifier. -/
def fileValRecv : File :=
  { ast := [.funcDecl (str "Len") none
      (some [.mk [str "p"] (.ident 31 (str "Point")) none])
      32 (some []) (some [.mk [] intE none])],
    imports := [], fset := goRender, funcs := [], types := [] }

/-- Package pairing the Point declaration with the value-receiver method. -/
def pkgValDone : Package :=
  Package.collectNodes { files := [fileOne, fileValRecv], module := none }

/-- Scenario file with a second value-receiver method, `func (p Point) Norm() int`. -/
def fileValRecv2 : File :=
  { ast := [.funcDecl (str "Norm") none
      (some [.mk [str "p"] (.ident 41 (str "Point")) none])
      42 (some []) (some [.mk [] intE none])],
    imports := [], fset := goRender, funcs := [], types := [] }

/-- Package pairing the Point declaration with the second value-receiver
method, for the boundary-behavior claim. -/
def pkgVal2Done : Package :=
  Package.collectNodes { files := [fileOne, fileValRecv2], module := none }

/-- C1: method binding is deferred until collection is complete.  In the
embedded Package.collectNodes every member file's collectNodesPhase runs
(in the first `List.map`) before any file's binder (the `List.foldl` of
bindMethodsAt), so the method `func (p *Point) Len() int` of file two binds
to the type `Point` declared in file one: after collect+bind,
package-scope lookup of "Point" returns a Struct entity with the two
Fields `X int` and `Y int` and exactly one bound Method named `Len`. -/
theorem c1_cross_file_method_binding :
    (File.LookupTypeInPackage (some pkgOneDone) (pkgOneDone.files.headD fileOne)
        (str "Point")).map nodeSummary =
      some { name := some (str "Point"), isStruct := true,
             fields := [{ name := str "X", typeName := str "int", tag := none },
                        { name := str "Y", typeName := str "int", tag := none }],
             methodNames := [str "Len"] } := by
  rfl

/-- Origin file's entity for the shadowing scenario: `type T int` at
position 200. -/
def tA : TypeNode :=
  { name := some (str "T"), doc := none, assign := 0, pos := 200,
    kind := .basicK intE, methods := [] }

/-- The other file's entity of the same name: `type T struct \x7b\x7d` at
position 100. -/
def tB : TypeNode :=
  { name := some (str "T"), doc := none, assign := 0, pos := 100,
    kind := .structK [] [], methods := [] }

/-- Origin file declaring its own `T` (position 200). -/
def fA2 : File :=
  { ast := [], imports := [], fset := goRender, funcs := [], types := [(200, tA)] }

/-- Another member file of the same package declaring `T` (position 100),
sitting before the origin file in the package's file table. -/
def fB2 : File :=
  { ast := [], imports := [], fset := goRender, funcs := [], types := [(100, tB)] }

/-- Package whose file-table iteration order puts the other file first —
a possible iteration order of the Go file map. -/
def pkgC2 : Package := { files := [fB2, fA2], module := none }

/-- C2 counterexample: the name "T" is declared both in the origin file
(entity at position 200) and in another file of the package (entity at
position 100); the package-scope lookup entry point returns the other
file's entity, not the origin file's — file scope is not searched first. -/
theorem c2_counterexample :
    (File.LookupTypeInPackage (some pkgC2) fA2 (str "T")).map TypeNode.pos = some 100 ∧
      (fA2.LookupTypeInFile (str "T")).map TypeNode.pos = some 200 :=
  ⟨rfl, rfl⟩

/-- C2 amended: with an owning package, the package-scope lookup entry
point scans the package's member files in file-table iteration order and
returns the first file's match; the origin file receives no precedence
(file-scope precedence exists only for a file with no package). -/
theorem c2_amended_fanout_first_match (p : Package) (f : File) (name : Str)
    (h : strContains name '.' = false) :
    File.LookupTypeInPackage (some p) f name =
      p.files.findSome? (fun v => v.LookupTypeInFile (strTrimStar name)) := by
  simp [File.LookupTypeInPackage, h]

/-- Witness for the amended C2 theorem at the shadowing scenario. -/
theorem c2_amended_witness :
    strContains (str "T") '.' = false ∧
      File.LookupTypeInPackage (some pkgC2) fA2 (str "T") = some tB :=
  ⟨rfl, (c2_amended_fanout_first_match pkgC2 fA2 (str "T") rfl).trans rfl⟩

/-- C3 counterexample: `func (p Point) Len() int` has a value receiver —
not a pointer to an identifier — yet the binding pass does not skip it:
package-scope lookup of the rendered receiver name "Point" succeeds (the
lookup strips leading '*', so pointer-ness is ignored) and the method is
bound to Point. -/
theorem c3_counterexample :
    (File.LookupTypeInPackage (some pkgValDone) (pkgValDone.files.headD fileOne)
        (str "Point")).map (fun t => t.methods.map (fun m => m.name)) =
      some [str "Len"] := by
  rfl

/-- C3 amended: the binding pass never faults — it is a total pass whose
loop body leaves the package untouched whenever the receiver's type name
fails package-scope resolution (for example a package-qualified or
non-identifier receiver expression); however a value receiver whose bare
name resolves in package scope is bound, not skipped. -/
theorem c3_amended_binder_skips_unresolvable (p : Package) (m : FuncNode)
    (r : FuncField) (h1 : m.Recv = some r)
    (h2 : lookupTypeLocInPackage p r.typeName = none) :
    bindOne p m = p := by
  simp [bindOne, h1, h2]

/-- A Func entity whose receiver names the package-qualified type `q.T`. -/
def rQ : FuncField := { name := str "p", typeName := str "q.T" }

def mQ : FuncNode :=
  { name := some (str "M"), doc := none, pos := 50, recv := some rQ,
    params := [], results := [] }

/-- Witness for the amended C3 theorem: the qualified receiver `q.T` does
not resolve, and binding leaves the package unchanged. -/
theorem c3_amended_witness :
    mQ.Recv = some rQ ∧ lookupTypeLocInPackage pkgOneDone (str "q.T") = none ∧
      bindOne pkgOneDone mQ = pkgOneDone :=
  ⟨rfl, rfl, c3_amended_binder_skips_unresolvable pkgOneDone mQ rQ rfl rfl⟩

/-- C7 counterexample: `func (p Point) Norm() int` has a value (non-
pointer) receiver; it is collected as a Func entity, but after the binder
runs it does appear in the Point entity's method list. -/
theorem c7_counterexample :
    (pkgVal2Done.files.get? 1).map (fun f => f.funcs.map (fun e => e.2.name)) =
        some [some (str "Norm")] ∧
      (File.LookupTypeInPackage (some pkgVal2Done) (pkgVal2Done.files.headD fileOne)
          (str "Point")).map (fun t => t.methods.map (fun m => m.name)) =
        some [str "Norm"] :=
  ⟨rfl, rfl⟩

/-- Go map read on a position-keyed type table. -/
def lookupPosAssoc : List (Pos × TypeNode) → Pos → Option TypeNode
  | [], _ => none
  | e :: rest, q => if e.1 == q then some e.2 else lookupPosAssoc rest q

/-- Method names of the entity at file index `j`, table key `q`. -/
def methodNamesAt (p : Package) (j : Nat) (q : Pos) : Option (List Str) :=
  (p.files.get? j).bind (fun f =>
    (lookupPosAssoc f.types q).map (fun t => t.methods.map (fun m => m.name)))

theorem updAt_get_self {α : Type} (l : List α) (i : Nat) (g : α → α) :
    (updAt l i g).get? i = (l.get? i).map g := by
  induction l generalizing i with
  | nil => simp [updAt]
  | cons a l ih =>
    cases i with
    | zero => simp [updAt]
    | succ i => simpa [updAt] using ih i

theorem lookupPosAssoc_map_upd (types : List (Pos × TypeNode)) (q : Pos)
    (m : FuncNode) :
    lookupPosAssoc (types.map (fun e => if e.1 == q then (e.1, e.2.addMethod m) else e)) q =
      (lookupPosAssoc types q).map (fun t => t.addMethod m) := by
  induction types with
  | nil => simp [lookupPosAssoc]
  | cons e rest ih =>
    by_cases hq : e.1 = q
    · simp [lookupPosAssoc, hq]
    · simp [lookupPosAssoc, hq]
      simpa using ih

/-- C7 amended: a function declaration with a receiver is collected as a
Func entity, and the binder appends it to a Type entity's method list
exactly when the receiver's star-stripped type name resolves in package
scope — so a value receiver naming a package-local type does appear in
that entity's method list, while a receiver that fails resolution (for
example a package-qualified or non-identifier expression) never does. -/
theorem c7_amended_bind_iff_resolvable (p : Package) (m : FuncNode)
    (r : FuncField) (j : Nat) (q : Pos) (h1 : m.Recv = some r)
    (h2 : lookupTypeLocInPackage p r.typeName = some (j, q)) :
    methodNamesAt (bindOne p m) j q =
      (methodNamesAt p j q).map (fun l => l ++ [m.name.getD []]) := by
  simp only [bindOne, h1, h2]
  simp only [methodNamesAt, updAt_get_self]
  cases hf : p.files.get? j with
  | none => rfl
  | some f =>
    simp only [Option.map_some', Option.some_bind, lookupPosAssoc_map_upd]
    cases ht : lookupPosAssoc f.types q with
    | none => rfl
    | some t => simp [TypeNode.addMethod]

/-- A pre-collected one-file package holding a bare Point entity. -/
def pointBare : TypeNode := newStructType (some (str "Point")) none 0 11 []

def fP7 : File :=
  { ast := [], imports := [], fset := goRender, funcs := [], types := [(11, pointBare)] }

def pkgW7 : Package := { files := [fP7], module := none }

/-- A Func entity with the value receiver `(p Point)`. -/
def rVal : FuncField := { name := str "p", typeName := str "Point" }

def mVal : FuncNode :=
  { name := some (str "Norm"), doc := none, pos := 42, recv := some rVal,
    params := [], results := [] }

/-- Witness for the amended C7 theorem: the value receiver `(p Point)`
resolves to the Point entity and the method lands in its method list. -/
theorem c7_amended_witness :
    mVal.Recv = some rVal ∧
      lookupTypeLocInPackage pkgW7 (str "Point") = some (0, 11) ∧
      methodNamesAt (bindOne pkgW7 mVal) 0 11 = some [str "Norm"] :=
  ⟨rfl, rfl, (c7_amended_bind_iff_resolvable pkgW7 mVal rVal 0 11 rfl rfl).trans rfl⟩

/-- C10: for a file with no owning package and a dot-free name, the
package-scope lookup entry point degrades to the file-scope lookup over
the file's own type table with leading '*' markers stripped. -/
theorem c10_standalone_degrades_to_file_scope (f : File) (name : Str)
    (h : strContains name '.' = false) :
    File.LookupTypeInPackage none f name = f.LookupTypeInFile (strTrimStar name) := by
  simp [File.LookupTypeInPackage, h]

/-- Witness for C10: looking up "*T" in a standalone file returns the
file's own `T` entity. -/
theorem c10_witness :
    strContains (str "*T") '.' = false ∧
      File.LookupTypeInPackage none fA2 (str "*T") = some tA :=
  ⟨rfl, (c10_standalone_degrades_to_file_scope fA2 (str "*T") rfl).trans rfl⟩

/-- Concatenation of the per-element lists, for stating the normalizer's
contract. -/
def joinMap {α β : Type} (g : α → List β) : List α → List β
  | [] => []
  | a :: l => g a ++ joinMap g l

/-- The Field Normalizer's contract in the spec's words: a group declaring
k names sharing one type and tag yields exactly k single-name fields, one
per name in declaration order, each with that type and tag; a group with
zero names stays one nameless field. -/
def normFieldGroup (g : AField) : List AField :=
  match g.names with
  | [] => [g]
  | ns => ns.map (fun n => .mk [n] g.typ g.tag)

/-- The same contract for function parameter / result / receiver groups:
one FuncField per declared name, all sharing the group's rendered type
text; a nameless group yields one anonymous FuncField. -/
def normFuncFieldGroup (f : File) (g : AField) : List FuncField :=
  match g.names with
  | [] => [{ name := [], typeName := f.TryFormat g.typ [] }]
  | ns => ns.map (fun n => { name := n, typeName := f.TryFormat g.typ [] })

theorem cloneBasicLit_id (t : Option BasicLit) : cloneBasicLit t = t := by
  cases t with
  | none => rfl
  | some b => rfl

theorem expandFieldsStep_eq (acc : List AField) (g : AField) :
    expandFieldsStep acc g = acc ++ normFieldGroup g := by
  cases g with
  | mk ns typ tag =>
    match ns with
    | [] => simp [expandFieldsStep, normFieldGroup, AField.names]
    | [n] => simp [expandFieldsStep, normFieldGroup, AField.names, AField.typ, AField.tag]
    | n :: m :: rest =>
      simp [expandFieldsStep, normFieldGroup, AField.names, AField.typ, AField.tag,
        cloneBasicLit_id]

theorem expandFieldsCore_aux (fl : List AField) (acc : List AField) :
    fl.foldl expandFieldsStep acc = acc ++ joinMap normFieldGroup fl := by
  induction fl generalizing acc with
  | nil => simp [joinMap]
  | cons g fl ih => simp [joinMap, ih, expandFieldsStep_eq]

theorem expandFuncFields_aux (f : File) (gs : List AField) (acc : List FuncField) :
    gs.foldl (fun fields g =>
        let typeName := f.TryFormat g.typ []
        if g.names.length == 0 then
          fields ++ [{ name := [], typeName := typeName }]
        else
          fields ++ g.names.map (fun n => { name := n, typeName := typeName })) acc =
      acc ++ joinMap (normFuncFieldGroup f) gs := by
  induction gs generalizing acc with
  | nil => simp [joinMap]
  | cons g gs ih =>
    rw [List.foldl_cons, ih]
    cases hn : g.names with
    | nil => simp [joinMap, normFuncFieldGroup, hn]
    | cons n ns => simp [joinMap, normFuncFieldGroup, hn]

/-- C4: field normalization.  The source's expandFields (struct members,
with tags) and expandFuncFields (function fields) both coincide with the
declaration-order, one-field-per-name normalization: a group with k ≥ 1
names yields exactly k fields carrying the group's type and tag, and a
nameless (embedded / anonymous) group yields exactly one nameless field. -/
theorem c4_field_normalization :
    (∀ fl : List AField, expandFields (some fl) = some (joinMap normFieldGroup fl)) ∧
      (∀ (f : File) (gs : List AField),
        f.expandFuncFields (some gs) = joinMap (normFuncFieldGroup f) gs) := by
  constructor
  · intro fl
    simp [expandFields, expandFieldsCore, expandFieldsCore_aux]
  · intro f gs
    simpa [File.expandFuncFields] using expandFuncFields_aux f gs []

/-- The owning module of an optional owning package (`f.pkg.module` with
Go's nil propagated). -/
def moduleOf : Option Package → Option Module
  | none => none
  | some p => p.module

theorem lookupPackages_no_module (pkg : Option Package) (f : File)
    (h : moduleOf pkg = none) (al : Str) :
    f.LookupPackages pkg al = ([], false) := by
  cases pkg with
  | none => rfl
  | some p =>
    simp only [moduleOf] at h
    simp [File.LookupPackages, h]

/-- C5: a qualified name and no attached module.  When the name contains a
dot and the origin file has no module (standalone parse, or a package
without a module), module-scope lookup returns not-found; the function is
total, so it never faults. -/
theorem c5_qualified_lookup_no_module (pkg : Option Package) (f : File)
    (name : Str) (hdot : strContains name '.' = true)
    (hmod : moduleOf pkg = none) :
    f.LookupTypeInModule pkg name = none := by
  have hp : f.LookupTypeInPackage pkg name = none := by
    simp [File.LookupTypeInPackage, hdot]
  simp [File.LookupTypeInModule, hp, lookupPackages_no_module pkg f hmod]

/-- Witness for C5: "u.Widget" on a standalone file. -/
theorem c5_witness :
    strContains (str "u.Widget") '.' = true ∧ moduleOf none = none ∧
      File.LookupTypeInModule none fA2 (str "u.Widget") = none :=
  ⟨rfl, rfl, c5_qualified_lookup_no_module none fA2 (str "u.Widget") rfl rfl⟩

/-- The module-scope scan in the claim's words: resolve the alias through
the origin file's import table to the imported packages, then look the
identifier up across each resolved package's files, first match winning. -/
def specModuleScan (pkg : Option Package) (f : File) (al ident : Str) :
    Option TypeNode :=
  let r := f.LookupPackages pkg al
  if r.2 then
    r.1.findSome? (fun pfiles => pfiles.findSome? (fun v => v.LookupTypeInFile ident))
  else none

theorem splitFirstDot_none (s : Str) (h : strContains s '.' = false) :
    splitFirstDot s = none := by
  induction s with
  | nil => rfl
  | cons c rest ih =>
    by_cases hc : c == '.'
    · simp [strContains, hc] at h
    · simp only [strContains, hc, if_false] at h
      simp [splitFirstDot, hc, ih h]

theorem strTrimStar_no_dot (s : Str) (h : strContains s '.' = false) :
    strContains (strTrimStar s) '.' = false := by
  induction s with
  | nil => simpa [strTrimStar] using h
  | cons c rest ih =>
    by_cases hc : c == '*'
    · have hcd : (c == '.') = false := by
        simp only [beq_iff_eq] at hc ⊢
        subst hc
        decide
      simp only [strContains, hcd, if_false] at h
      simpa [strTrimStar, hc] using ih h
    · simpa [strTrimStar, hc] using h

/-- C6: module-qualified resolution.  A dotted name is split at its first
dot into alias and identifier (after star-trimming), the alias is resolved
through the origin file's import table to the imported packages, and the
identifier is looked up across each resolved package's files with first
match winning; an unqualified bare name (once package scope has failed) is
given the implicit "." alias — the dot-import alias standing for names in
the current file's scope — and is otherwise resolved the same way. -/
theorem c6_qualified_split_and_scan (pkg : Option Package) (f : File) (name : Str) :
    (∀ a b, strContains name '.' = true →
      splitFirstDot (strTrimStar name) = some (a, b) →
      f.LookupTypeInModule pkg name = specModuleScan pkg f a b) ∧
    (strContains name '.' = false →
      f.LookupTypeInModule pkg name =
        match f.LookupTypeInPackage pkg name with
        | some t => some t
        | none => specModuleScan pkg f ['.'] (strTrimStar name)) := by
  constructor
  · intro a b hdot hsplit
    have hp : f.LookupTypeInPackage pkg name = none := by
      simp [File.LookupTypeInPackage, hdot]
    have hs : strSplitN2 (strTrimStar name) = [a, b] := by
      simp [strSplitN2, hsplit]
    simp [File.LookupTypeInModule, hp, hs, specModuleScan]
  · intro hdot
    have hs : strSplitN2 (strTrimStar name) = [strTrimStar name] := by
      simp [strSplitN2, splitFirstDot_none _ (strTrimStar_no_dot name hdot)]
    cases hP : f.LookupTypeInPackage pkg name with
    | some t => simp [File.LookupTypeInModule, hP]
    | none => simp [File.LookupTypeInModule, hP, hs, specModuleScan]

/-- The `Widget` entity of the imported package `u`. -/
def widgetNode : TypeNode := newStructType (some (str "Widget")) none 0 300 []

def fU : File :=
  { ast := [], imports := [], fset := goRender, funcs := [], types := [(300, widgetNode)] }

def modU : Module := { pkgs := [(str "u", [fU])] }

/-- Origin file importing `u`, inside a package attached to the module. -/
def fA6 : File :=
  { ast := [], imports := [{ name := str "u" }], fset := goRender, funcs := [], types := [] }

def pkgA6 : Package := { files := [fA6], module := some modU }

/-- Witness for C6 at "u.Widget": the alias `u` resolves through the file's
imports and the Widget entity is found in the imported package. -/
theorem c6_witness :
    strContains (str "u.Widget") '.' = true ∧
      splitFirstDot (strTrimStar (str "u.Widget")) = some (str "u", str "Widget") ∧
      File.LookupTypeInModule (some pkgA6) fA6 (str "u.Widget") = some widgetNode :=
  ⟨rfl, rfl,
    ((c6_qualified_split_and_scan (some pkgA6) fA6 (str "u.Widget")).1
        (str "u") (str "Widget") rfl rfl).trans rfl⟩

/-- C8: named-type dispatch.  After getElemE strips the leading pointer
indirections from a type declaration's right-hand side: a dotted
identifier yields an Alias entity; a plain identifier yields a Basic or an
Alias entity; channel, array-or-slice, map and interface forms yield the
matching variant carrying its element type (key and value for a map, the
method field list for an interface); the struct form is left to the struct
sub-pass and every unrecognized shape registers no entity. -/
theorem c8_named_type_dispatch (name : Str) (assign : Int) (doc : Option Str)
    (e : Expr) :
    match getElemE e with
    | .selector _ _ _ => ∃ t, dispatchTypeSpec name assign doc (some e) = some t ∧
        t.kind.isAlias = true
    | .ident _ _ => ∃ t, dispatchTypeSpec name assign doc (some e) = some t ∧
        (t.kind.isAlias = true ∨ t.kind.isBasic = true)
    | .chanT _ elem => ∃ t, dispatchTypeSpec name assign doc (some e) = some t ∧
        t.kind = .chanK elem
    | .arrayT _ elem => ∃ t, dispatchTypeSpec name assign doc (some e) = some t ∧
        t.kind = .listK elem
    | .mapT _ key val => ∃ t, dispatchTypeSpec name assign doc (some e) = some t ∧
        t.kind = .mapK key val
    | .interfaceT _ ms => ∃ t, dispatchTypeSpec name assign doc (some e) = some t ∧
        t.kind = .interfaceK ms
    | .structT _ _ => dispatchTypeSpec name assign doc (some e) = none
    | _ => dispatchTypeSpec name assign doc (some e) = none := by
  cases hg : getElemE e with
  | selector p x sel =>
    refine ⟨newAliasType (some name) doc assign (.selector p x sel), ?_, rfl⟩
    simp [dispatchTypeSpec, hg]
  | ident p n =>
    refine ⟨newBasicOrAliasType (some name) doc assign (.ident p n), ?_, ?_⟩
    · simp [dispatchTypeSpec, hg]
    · cases ha : (assign == 0) with
      | true =>
        right
        simp [newBasicOrAliasType, ha, TypeKind.isBasic]
      | false =>
        left
        simp [newBasicOrAliasType, ha, TypeKind.isAlias]
  | chanT p elem =>
    refine ⟨newChanType (some name) doc assign p elem, ?_, rfl⟩
    simp [dispatchTypeSpec, hg]
  | arrayT p elem =>
    refine ⟨newListType (some name) doc assign p elem, ?_, rfl⟩
    simp [dispatchTypeSpec, hg]
  | mapT p key val =>
    refine ⟨newMapType (some name) doc assign p key val, ?_, rfl⟩
    simp [dispatchTypeSpec, hg]
  | interfaceT p ms =>
    refine ⟨newInterfaceType (some name) doc assign p ms, ?_, rfl⟩
    simp [dispatchTypeSpec, hg]
  | structT p fs => simp [dispatchTypeSpec, hg]
  | funcT p => simp [dispatchTypeSpec, hg]
  | otherE p => simp [dispatchTypeSpec, hg]
  | star p x => simp [dispatchTypeSpec, hg]

/-- C9 counterexample: when rendering fails and the caller supplied no
fallback to TryFormat, the failure does not propagate: TryFormat returns
the empty string through its plain string result (there is no error
channel), exactly the situation of the expandFuncFields call site, whose
field silently gets an empty type name. -/
def failFile : File :=
  { ast := [], imports := [], fset := failRender, funcs := [], types := [] }

def nodeX : Expr := .ident 1 (str "x")

theorem c9_counterexample :
    failFile.fset nodeX = .error (str "render failed") ∧
      failFile.TryFormat nodeX [] = [] ∧
      failFile.expandFuncFields (some [.mk [str "a"] nodeX none]) =
        [{ name := str "a", typeName := [] }] :=
  ⟨rfl, rfl, rfl⟩

/-- C9 amended: on rendering failure, TryFormat with a supplied fallback
returns the fallback; without a fallback the failure propagates as an
error only through Format (which returns ("", err)), while TryFormat with
no fallback returns the empty string and swallows the failure. -/
theorem c9_render_failure_policy (f : File) (node : Expr) (e : Str)
    (h : f.fset node = .error e) :
    (∀ d ds, f.TryFormat node (d :: ds) = d) ∧
      f.Format node = ([], some e) ∧ f.TryFormat node [] = [] := by
  refine ⟨fun d ds => ?_, ?_, ?_⟩
  · simp [File.TryFormat, File.Format, h]
  · simp [File.Format, h]
  · simp [File.TryFormat, File.Format, h]

/-- Witness for the amended C9 theorem on the failing renderer. -/
theorem c9_amended_witness :
    failFile.fset nodeX = .error (str "render failed") ∧
      failFile.TryFormat nodeX [str "fallback"] = str "fallback" ∧
      failFile.Format nodeX = ([], some (str "render failed")) :=
  ⟨rfl,
    (c9_render_failure_policy failFile nodeX (str "render failed") rfl).1
      (str "fallback") [],
    (c9_render_failure_policy failFile nodeX (str "render failed") rfl).2.1⟩

end Aster
